import Mathlib

/-!
Verification of the DNS proxy core (`dnsproxy.py`).

Python 2 byte strings are modelled as `List Nat` (one `Nat` per byte).
IPv4 addresses, which the source passes around as dotted strings and packs
with `socket.inet_aton`, are modelled as a structure of four octets.
-/

/-- An IPv4 address, as four octets.  The source represents addresses as
dotted strings (e.g. "192.168.1.5"); only the four octets are observable
through the operations modelled here. -/
structure IPv4 where
  a : Nat
  b : Nat
  c : Nat
  d : Nat
deriving DecidableEq

/-- Modelled from the spec: `socket.inet_aton(ip)` packs the IPv4 address
into its "4 raw bytes" (the standard library call is outside the repository;
the spec describes the payload tail as "the 4 raw bytes of the IPv4
address"). -/
def inet_aton (ip : IPv4) : List Nat :=
  [ip.a, ip.b, ip.c, ip.d]

/-- Modelled from the spec: `ipaddr.IPAddress(real_ip).is_private` (the
`ipaddr` module is third-party code outside `src/`).  The spec classifies an
address as private by "standard IPv4 private-range rules (RFC 1918 ranges,
loopback, link-local)". -/
def is_private (ip : IPv4) : Bool :=
  (ip.a = 10) ||
  (ip.a = 172 && 16 ≤ ip.b && ip.b ≤ 31) ||
  (ip.a = 192 && ip.b = 168) ||
  (ip.a = 127) ||
  (ip.a = 169 && ip.b = 254)

/-- Bytes of a string, for readable concrete packets ("." is byte 46). -/
def str2bytes (s : String) : List Nat :=
  s.data.map Char.toNat

namespace UdpDnsHandler

/-- Source: `UdpDnsHandler._domain`, the while loop body.  `index` walks the
wire-format name; reading `wire_domain[index]` with `index` out of bounds
raises IndexError in Python, modelled as `none`.  The loop consumes a length
byte; zero terminates, otherwise the label bytes are appended followed by a
dot (byte 46).  The structural `fuel` argument only bounds the recursion;
`wire_domain.length + 1` steps are always enough because `index` strictly
increases, so the fuel-exhaustion branch coincides with the out-of-bounds
branch (both yield `none`). -/
def domainGo (w : List Nat) : Nat → Nat → List Nat → Option (List Nat)
  | 0, _, _ => none
  | fuel + 1, index, domain =>
    match w.drop index with
    | [] => none
    | length :: _ =>
      if length = 0 then
        some domain
      else
        domainGo w fuel (index + length + 1)
          (domain ++ (w.drop (index + 1)).take length ++ [46])

/-- Source: `UdpDnsHandler._domain(wire_domain)`. -/
def _domain (wire_domain : List Nat) : Option (List Nat) :=
  domainGo wire_domain (wire_domain.length + 1) 0 []

/-- The error raised when the handler indexes past the end of the packet
(Python IndexError; the role the spec calls MalformedPacketError). -/
inductive HandleErr where
  | indexError
deriving DecidableEq

/-- The fields `handle` extracts from the raw packet before answering
(section 3 of the spec calls this record Query). -/
structure Query where
  transaction_id : List Nat
  flags : List Nat
  qa_counts : List Nat
  operation_code : Nat
  domain : List Nat
  wire_domain : List Nat
deriving DecidableEq

/-- Source: the decoding half of `UdpDnsHandler.handle` (lines 129 to 140):
`transaction_id = data[0]`, `flags = data[1]`, `qa_counts = data[4:6]`,
`operation_code = (ord(data[2]) >> 3) & 15`; for operation code 0 the wire
domain is `data[12:]` and the dotted domain is parsed from it, otherwise the
domain stays empty. -/
def decode (data : List Nat) : Except HandleErr Query :=
  match data.get? 0 with
  | none => .error .indexError
  | some b0 =>
    match data.get? 1 with
    | none => .error .indexError
    | some b1 =>
      match data.get? 2 with
      | none => .error .indexError
      | some b2 =>
        let qa_counts := (data.drop 4).take 2
        let operation_code := (b2 >>> 3) &&& 15
        if operation_code = 0 then
          match _domain (data.drop 12) with
          | none => .error .indexError
          | some d =>
            .ok ⟨[b0], [b1], qa_counts, operation_code, d, data.drop 12⟩
        else
          .ok ⟨[b0], [b1], qa_counts, operation_code, [], []⟩

/-- Source: `UdpDnsHandler.get_dns_response(ip)` (lines 163 to 179).  An
empty domain yields the empty packet; otherwise the response is the
transaction id byte, the flags byte, the fixed bytes 0x81 0x80, the 2-byte
count field twice, four zero bytes, the verbatim question bytes, the name
pointer 0xC00C, type A, class IN, TTL 60, data length 4, and the packed
address. -/
def get_dns_response (q : Query) (ip : IPv4) : List Nat :=
  if q.domain = [] then
    []
  else
    q.transaction_id ++ q.flags ++ [0x81, 0x80] ++
      (q.qa_counts ++ q.qa_counts) ++ [0, 0, 0, 0] ++
      q.wire_domain ++
      [0xc0, 0x0c] ++ [0x00, 0x01] ++ [0x00, 0x01] ++
      [0x00, 0x00, 0x00, 0x3c] ++ [0x00, 0x04] ++
      inet_aton ip

/-- Source: `UdpDnsHandler.handle` (lines 121 to 150).  The passthrough
filter and the server bind address are the handler state referenced through
`self.server`; the returned list is the payload passed to `wfile.write`,
and `.error` models an uncaught exception before the write. -/
def handle (data : List Nat) (passthrough_filter : List Nat → Option IPv4)
    (server_address : IPv4) : Except HandleErr (List Nat) :=
  match decode data with
  | .error e => .error e
  | .ok q =>
    let ip : IPv4 :=
      match passthrough_filter q.domain with
      | none => server_address
      | some i => i
    .ok (get_dns_response q ip)

end UdpDnsHandler

/-- The DNS cache of `RealDnsLookup`: a Python dict from hostname to the
stored value, which is either a resolved address or the `None` marker stored
when a query returns with no answers.  Modelled as an association list in
which assignment prepends a shadowing entry; `dictGetEntry` observes the
current binding. -/
abbrev Cache := List (List Nat × Option IPv4)

/-- The current binding of `k` in the dict: `none` when `k` is absent,
`some v` when `k` is bound to `v` (where `v = none` is the stored no-answer
marker). -/
def dictGetEntry (c : Cache) (k : List Nat) : Option (Option IPv4) :=
  (c.find? (fun p => p.1 = k)).map (fun p => p.2)

/-- Source: `self.dns_cache.get(hostname)` — `None` both when the key is
absent and when the stored value is the `None` marker. -/
def dictGet (c : Cache) (k : List Nat) : Option IPv4 :=
  (dictGetEntry c k).join

/-- Source: `self.dns_cache[hostname] = ip` (dict assignment). -/
def dictSet (c : Cache) (k : List Nat) (v : Option IPv4) : Cache :=
  (k, v) :: c

/-- The outcome of one call of `self.resolver.query(hostname, rdtype)`:
either a normal return carrying the (possibly empty) answer list, or one of
the three exceptions the source catches. -/
inductive QueryOutcome where
  | answers (l : List IPv4)
  | noAnswer
  | nxdomain
  | timeout
deriving DecidableEq

namespace RealDnsLookup

/-- Source: `RealDnsLookup.__call__` (lines 43 to 70).  The cache is the
explicit state; `upstream` is what `self.resolver.query` does on this call.
On a truthy cache hit the value is returned and nothing is written; on a
caught exception `None` is returned immediately (before the store
statement); on a normal return the first answer (or the still-falsy `ip`
when the answer list is empty) is stored and returned. -/
def call (cache : Cache) (upstream : QueryOutcome) (hostname : List Nat) :
    Option IPv4 × Cache :=
  let ip := dictGet cache hostname
  if ip.isSome then
    (ip, cache)
  else
    match upstream with
    | .noAnswer => (none, cache)
    | .nxdomain => (none, cache)
    | .timeout => (none, cache)
    | .answers answers =>
      let ip2 : Option IPv4 :=
        match answers with
        | [] => ip
        | a :: _ => some a
      (ip2, dictSet cache hostname ip2)

end RealDnsLookup

/-- Source: class `DnsPrivatePassthroughFilter` — its constructor arguments
as stored on `self` (with the skip set already in stored form). -/
structure DnsPrivatePassthroughFilter where
  web_proxy_ip : IPv4
  real_dns_lookup : List Nat → Option IPv4
  skip_passthrough_hosts : List (List Nat)

namespace DnsPrivatePassthroughFilter

/-- Source: `DnsPrivatePassthroughFilter.__init__` (lines 78 to 91): the
skip set is built by appending a dot to every configured host. -/
def init (web_proxy_ip : IPv4) (real_dns_lookup : List Nat → Option IPv4)
    (skip_passthrough_hosts : List (List Nat)) : DnsPrivatePassthroughFilter :=
  ⟨web_proxy_ip, real_dns_lookup,
    skip_passthrough_hosts.map (fun host => host ++ [46])⟩

/-- Source: `DnsPrivatePassthroughFilter.__call__` (lines 93 to 109),
instrumented with the number of times `self.real_dns_lookup` is invoked.
`ip` starts as the proxy address; outside the skip set, a truthy lookup
result replaces it only when private, and a falsy lookup result makes it
`None`. -/
def callT (f : DnsPrivatePassthroughFilter) (host : List Nat) :
    Option IPv4 × Nat :=
  if host ∈ f.skip_passthrough_hosts then
    (some f.web_proxy_ip, 0)
  else
    match f.real_dns_lookup host with
    | some real_ip =>
      (some (if is_private real_ip then real_ip else f.web_proxy_ip), 1)
    | none => (none, 1)

/-- Source: `DnsPrivatePassthroughFilter.__call__` — the returned value. -/
def call (f : DnsPrivatePassthroughFilter) (host : List Nat) : Option IPv4 :=
  (f.callT host).1

end DnsPrivatePassthroughFilter

/-- Wire encoding of a label sequence: each label is emitted as its length
byte followed by its bytes (the inverse of the parsing loop). -/
def encodeLabels : List (List Nat) → List Nat
  | [] => []
  | l :: ls => l.length :: (l ++ encodeLabels ls)

/-- The dotted domain a label sequence decodes to: each label followed by a
dot (byte 46), concatenated. -/
def joinDomain (labels : List (List Nat)) : List Nat :=
  (labels.map (fun l => l ++ [46])).flatten

/-- The claim C10 reachability predicate: starting from `index`, following
the length-byte chain stays in bounds and reaches a zero length byte. -/
inductive ReachesZero (w : List Nat) : Nat → Prop
  | zero (index : Nat) (t : List Nat) :
      w.drop index = 0 :: t → ReachesZero w index
  | step (index len : Nat) (t : List Nat) :
      w.drop index = (len + 1) :: t →
      ReachesZero w (index + (len + 1) + 1) →
      ReachesZero w index

/-- The test packet of section 8 of the spec: transaction id 0x1234,
standard query, one question for www.test.com (type A, class IN). -/
def testPacket : List Nat :=
  [0x12, 0x34, 0x00, 0x00, 0x00, 0x01, 0x00, 0x00, 0x00, 0x00, 0x00, 0x00,
   3, 119, 119, 119, 4, 116, 101, 115, 116, 3, 99, 111, 109, 0,
   0x00, 0x01, 0x00, 0x01]

/-- The record `decode testPacket` produces. -/
def testQuery : UdpDnsHandler.Query :=
  ⟨[0x12], [0x34], [0x00, 0x01], 0, str2bytes "www.test.com.",
   [3, 119, 119, 119, 4, 116, 101, 115, 116, 3, 99, 111, 109, 0,
    0x00, 0x01, 0x00, 0x01]⟩

example : UdpDnsHandler.decode testPacket = Except.ok testQuery := rfl

example : UdpDnsHandler._domain (str2bytes "\x03www\x04test\x03com\x00") =
    some (str2bytes "www.test.com.") := by decide

example : UdpDnsHandler._domain [5, 65] = none := by decide

lemma drop_cons_succ {w : List Nat} {i x : Nat} {t : List Nat}
    (h : w.drop i = x :: t) : w.drop (i + 1) = t := by
  have ht := List.tail_drop w i
  rw [h] at ht
  exact ht.symm

lemma lt_length_of_drop_cons {w : List Nat} {i x : Nat} {t : List Nat}
    (h : w.drop i = x :: t) : i < w.length := by
  by_contra hc
  push_neg at hc
  rw [List.drop_eq_nil_of_le hc] at h
  exact List.noConfusion h

lemma joinDomain_nil : joinDomain [] = [] := rfl

lemma joinDomain_cons (l : List Nat) (ls : List (List Nat)) :
    joinDomain (l :: ls) = l ++ [46] ++ joinDomain ls := by
  simp [joinDomain]

lemma joinDomain_ne_nil {labels : List (List Nat)} (h : labels ≠ []) :
    joinDomain labels ≠ [] := by
  cases labels with
  | nil => exact absurd rfl h
  | cons l ls => simp [joinDomain_cons]

lemma domainGo_encode (labels : List (List Nat)) :
    ∀ (w rest : List Nat) (fuel index : Nat) (acc : List Nat),
      (∀ l ∈ labels, l ≠ []) →
      w.drop index = encodeLabels labels ++ 0 :: rest →
      w.length - index < fuel →
      UdpDnsHandler.domainGo w fuel index acc = some (acc ++ joinDomain labels) := by
  induction labels with
  | nil =>
    intro w rest fuel index acc _ hq hfuel
    have hlt : index < w.length := lt_length_of_drop_cons (by simpa using hq)
    obtain ⟨f, rfl⟩ : ∃ f, fuel = f + 1 := ⟨fuel - 1, by omega⟩
    simp only [UdpDnsHandler.domainGo]
    rw [show w.drop index = 0 :: rest by simpa using hq]
    simp [joinDomain_nil]
  | cons l ls ih =>
    intro w rest fuel index acc hne hq hfuel
    have hl : l ≠ [] := hne l (by simp)
    have hq' : w.drop index = l.length :: (l ++ (encodeLabels ls ++ 0 :: rest)) := by
      simpa [encodeLabels, List.append_assoc] using hq
    have hlt : index < w.length := lt_length_of_drop_cons hq'
    obtain ⟨f, rfl⟩ : ∃ f, fuel = f + 1 := ⟨fuel - 1, by omega⟩
    simp only [UdpDnsHandler.domainGo]
    rw [hq']
    have hlen : l.length ≠ 0 := by
      intro h0
      exact hl (List.eq_nil_of_length_eq_zero h0)
    simp only [hlen, if_false]
    have hdrop1 : w.drop (index + 1) = l ++ (encodeLabels ls ++ 0 :: rest) :=
      drop_cons_succ hq'
    have htake : (w.drop (index + 1)).take l.length = l := by
      rw [hdrop1]
      exact List.take_left l _
    have hdrop2 : w.drop (index + l.length + 1) = encodeLabels ls ++ 0 :: rest := by
      have h1 : w.drop (index + 1 + l.length) = (w.drop (index + 1)).drop l.length :=
        (List.drop_drop l.length (index + 1) w).symm
      rw [show index + l.length + 1 = index + 1 + l.length by omega, h1, hdrop1]
      exact List.drop_left l _
    rw [htake,
      ih w rest f (index + l.length + 1) (acc ++ l ++ [46])
        (fun x hx => hne x (by simp [hx])) hdrop2 (by omega)]
    simp [joinDomain_cons, List.append_assoc]

lemma _domain_encode {labels : List (List Nat)} (rest : List Nat)
    (hne : ∀ l ∈ labels, l ≠ []) :
    UdpDnsHandler._domain (encodeLabels labels ++ 0 :: rest) =
      some (joinDomain labels) := by
  unfold UdpDnsHandler._domain
  rw [domainGo_encode labels _ rest _ 0 [] hne (by simp) (by omega)]
  simp

lemma reaches_of_domainGo_some {w : List Nat} :
    ∀ (fuel index acc d : _),
      UdpDnsHandler.domainGo w fuel index acc = some d → ReachesZero w index := by
  intro fuel
  induction fuel with
  | zero => intro index acc d h; exact absurd h (by simp [UdpDnsHandler.domainGo])
  | succ f ih =>
    intro index acc d h
    simp only [UdpDnsHandler.domainGo] at h
    rcases hd : w.drop index with _ | ⟨len, t⟩
    · rw [hd] at h
      exact absurd h (by simp)
    · rw [hd] at h
      rcases hlen : len with _ | k
      · exact ReachesZero.zero index t (by rwa [hlen] at hd)
      · rw [hlen] at h
        simp only [Nat.succ_ne_zero, if_false] at h
        exact ReachesZero.step index k t (by rwa [hlen] at hd) (ih _ _ _ h)

lemma domainGo_some_of_reaches {w : List Nat} {index : Nat}
    (hr : ReachesZero w index) :
    ∀ (fuel acc : _), w.length - index < fuel →
      ∃ d, UdpDnsHandler.domainGo w fuel index acc = some d := by
  induction hr with
  | zero index t hd =>
    intro fuel acc hfuel
    have hlt : index < w.length := lt_length_of_drop_cons hd
    obtain ⟨f, rfl⟩ : ∃ f, fuel = f + 1 := ⟨fuel - 1, by omega⟩
    simp only [UdpDnsHandler.domainGo]
    rw [hd]
    simp
  | step index k t hd _ ih =>
    intro fuel acc hfuel
    have hlt : index < w.length := lt_length_of_drop_cons hd
    obtain ⟨f, rfl⟩ : ∃ f, fuel = f + 1 := ⟨fuel - 1, by omega⟩
    simp only [UdpDnsHandler.domainGo]
    rw [hd]
    simp only [Nat.succ_ne_zero, if_false]
    exact ih f _ (by omega)

lemma dictGetEntry_dictSet (c : Cache) (k k' : List Nat) (v : Option IPv4) :
    dictGetEntry (dictSet c k v) k' =
      if k = k' then some v else dictGetEntry c k' := by
  by_cases h : k = k'
  · subst h
    simp [dictGetEntry, dictSet, List.find?]
  · simp [dictGetEntry, dictSet, List.find?, h]

lemma two_le_joinDomain_length {labels : List (List Nat)} (h : labels ≠ [])
    (hne : ∀ l ∈ labels, l ≠ []) : 2 ≤ (joinDomain labels).length := by
  cases labels with
  | nil => exact absurd rfl h
  | cons l ls =>
    have hl : l ≠ [] := hne l (by simp)
    have : 1 ≤ l.length := by
      cases l with
      | nil => exact absurd rfl hl
      | cons a t => simp
    simp only [joinDomain_cons, List.length_append, List.length_cons,
      List.length_nil]
    omega

lemma mem_of_getLast?_eq {l : List Nat} {a : Nat} (h : l.getLast? = some a) :
    a ∈ l := by
  have hm : a ∈ l.getLast? := h
  obtain ⟨hne, rfl⟩ := List.mem_getLast?_eq_getLast hm
  exact List.getLast_mem hne

lemma joinDomain_getLast {labels : List (List Nat)} (h : labels ≠ [])
    (hl : ∀ l ∈ labels, l ≠ [] ∧ 46 ∉ l) :
    (joinDomain labels).getLast? = some 46 ∧
      (joinDomain labels).dropLast.getLast? ≠ some 46 := by
  induction labels with
  | nil => exact absurd rfl h
  | cons l ls ih =>
    obtain ⟨hlne, hldot⟩ := hl l (by simp)
    cases ls with
    | nil =>
      constructor
      · simp [joinDomain_cons, joinDomain_nil, List.getLast?_concat]
      · simp only [joinDomain_cons, joinDomain_nil, List.append_nil,
          List.dropLast_concat]
        intro hc
        exact hldot (mem_of_getLast?_eq hc)
    | cons l2 ls2 =>
      have hls : (l2 :: ls2) ≠ [] := by simp
      have hl2 : ∀ x ∈ l2 :: ls2, x ≠ [] ∧ 46 ∉ x :=
        fun x hx => hl x (by simp [hx])
      obtain ⟨ih1, ih2⟩ := ih hls hl2
      have hjne : joinDomain (l2 :: ls2) ≠ [] := joinDomain_ne_nil hls
      have hj2 : 2 ≤ (joinDomain (l2 :: ls2)).length :=
        two_le_joinDomain_length hls (fun x hx => (hl2 x hx).1)
      have hdne : (joinDomain (l2 :: ls2)).dropLast ≠ [] := by
        intro hc
        have := List.length_dropLast (joinDomain (l2 :: ls2))
        rw [hc] at this
        simp at this
        omega
      constructor
      · rw [joinDomain_cons, List.getLast?_append_of_ne_nil _ hjne]
        exact ih1
      · rw [joinDomain_cons, List.dropLast_append_of_ne_nil _ hjne,
          List.getLast?_append_of_ne_nil _ hdne]
        exact ih2

/-- C10: the label-parsing loop of `_domain` terminates only on a zero
length byte: it yields a domain exactly when, following the length-byte
chain from offset 0, every read stays in bounds and a zero length byte is
reached; on every other input (including a label length running past the
end of the packet) the loop indexes past the end of the data and no result
is produced. -/
theorem c10_domain_partiality (w : List Nat) :
    (∃ d, UdpDnsHandler._domain w = some d) ↔ ReachesZero w 0 := by
  constructor
  · rintro ⟨d, hd⟩
    exact reaches_of_domainGo_some _ 0 [] d hd
  · intro hr
    exact domainGo_some_of_reaches hr (w.length + 1) [] (by omega)

/-- C2: a raw query packet of at least 13 bytes with operation code 0 whose
bytes from offset 12 encode a zero-terminated sequence of length-prefixed
labels decodes to the domain formed by concatenating the labels, each
followed by a dot. -/
theorem c2_decode_domain (data : List Nat) (labels : List (List Nat))
    (tail : List Nat)
    (hlen : 13 ≤ data.length)
    (hop : (data.getD 2 0 >>> 3) &&& 15 = 0)
    (hq : data.drop 12 = encodeLabels labels ++ 0 :: tail)
    (hl : ∀ l ∈ labels, l ≠ [] ∧ l.length ≤ 255) :
    ∃ q, UdpDnsHandler.decode data = Except.ok q ∧
      q.domain = joinDomain labels := by
  rcases data with _ | ⟨b0, data⟩
  · simp at hlen
  rcases data with _ | ⟨b1, data⟩
  · simp at hlen
  rcases data with _ | ⟨b2, rest⟩
  · simp at hlen
  have hop2 : (b2 >>> 3) &&& 15 = 0 := by simpa [List.getD] using hop
  have hdom : UdpDnsHandler._domain ((b0 :: b1 :: b2 :: rest).drop 12) =
      some (joinDomain labels) := by
    rw [hq]
    exact _domain_encode tail (fun l hmem => (hl l hmem).1)
  simp only [UdpDnsHandler.decode, List.get?, hop2, if_true, hdom]
  exact ⟨_, rfl, rfl⟩

lemma drop_length_sub_append (pre suf : List Nat) :
    (pre ++ suf).drop ((pre ++ suf).length - suf.length) = suf := by
  have h : (pre ++ suf).length - suf.length = pre.length := by
    simp [List.length_append]
  rw [h]
  exact List.drop_left pre suf

/-- C1: for a standard-query packet whose bytes from offset 12 form one
well-formed question section (a nonempty zero-terminated label sequence
followed by the 4 type and class bytes), and any IPv4 address, the encoded
response is: request bytes 0 and 1, the fixed bytes 0x81 0x80, request
bytes 4 and 5 duplicated into both count slots, four zero bytes, the
original question-section bytes verbatim, the name pointer 0xC00C, type A,
class IN, TTL 60, data length 4, and the 4 packed address bytes; in
particular bytes 0 and 1 of the response equal bytes 0 and 1 of the request
and the last 4 bytes are the packed address. -/
theorem c1_response_layout (data : List Nat) (labels : List (List Nat))
    (tail4 : List Nat) (ip addr : IPv4)
    (hop : (data.getD 2 0 >>> 3) &&& 15 = 0)
    (hq : data.drop 12 = encodeLabels labels ++ 0 :: tail4)
    (hlab : labels ≠ [])
    (hne : ∀ l ∈ labels, l ≠ [] ∧ l.length ≤ 255)
    (ht4 : tail4.length = 4) :
    ∃ resp,
      UdpDnsHandler.handle data (fun _ => some ip) addr = Except.ok resp ∧
      resp = data.take 2 ++ [0x81, 0x80] ++
        ((data.drop 4).take 2 ++ (data.drop 4).take 2) ++ [0, 0, 0, 0] ++
        data.drop 12 ++
        [0xc0, 0x0c] ++ [0x00, 0x01] ++ [0x00, 0x01] ++
        [0x00, 0x00, 0x00, 0x3c] ++ [0x00, 0x04] ++ inet_aton ip ∧
      resp.take 2 = data.take 2 ∧
      resp.drop (resp.length - 4) = inet_aton ip := by
  have hlen : 13 ≤ data.length := by
    by_contra hc
    push_neg at hc
    have hnil : data.drop 12 = [] := List.drop_eq_nil_of_le (by omega)
    rw [hq] at hnil
    simpa using congrArg List.length hnil
  rcases data with _ | ⟨b0, data⟩
  · simp at hlen
  rcases data with _ | ⟨b1, data⟩
  · simp at hlen
  rcases data with _ | ⟨b2, rest⟩
  · simp at hlen
  have hop2 : (b2 >>> 3) &&& 15 = 0 := by simpa [List.getD] using hop
  have hdom : UdpDnsHandler._domain ((b0 :: b1 :: b2 :: rest).drop 12) =
      some (joinDomain labels) := by
    rw [hq]
    exact _domain_encode tail4 (fun l hmem => (hne l hmem).1)
  have hjne : joinDomain labels ≠ [] := joinDomain_ne_nil hlab
  refine ⟨_, ?_, rfl, ?_, ?_⟩
  · simp only [UdpDnsHandler.handle, UdpDnsHandler.decode, List.get?, hop2,
      if_true, hdom]
    simp [UdpDnsHandler.get_dns_response, hjne]
  · simp
  · have hform : (b0 :: b1 :: b2 :: rest).take 2 ++ [0x81, 0x80] ++
        (((b0 :: b1 :: b2 :: rest).drop 4).take 2 ++
          ((b0 :: b1 :: b2 :: rest).drop 4).take 2) ++ [0, 0, 0, 0] ++
        (b0 :: b1 :: b2 :: rest).drop 12 ++
        [0xc0, 0x0c] ++ [0x00, 0x01] ++ [0x00, 0x01] ++
        [0x00, 0x00, 0x00, 0x3c] ++ [0x00, 0x04] ++ inet_aton ip =
        ((b0 :: b1 :: b2 :: rest).take 2 ++ [0x81, 0x80] ++
          (((b0 :: b1 :: b2 :: rest).drop 4).take 2 ++
            ((b0 :: b1 :: b2 :: rest).drop 4).take 2) ++ [0, 0, 0, 0] ++
          (b0 :: b1 :: b2 :: rest).drop 12 ++
          [0xc0, 0x0c] ++ [0x00, 0x01] ++ [0x00, 0x01] ++
          [0x00, 0x00, 0x00, 0x3c] ++ [0x00, 0x04]) ++ inet_aton ip := by
      simp [List.append_assoc]
    rw [hform]
    have h4 : (4 : Nat) = (inet_aton ip).length := by simp [inet_aton]
    rw [h4]
    exact drop_length_sub_append _ _

/-- C3: for a host outside the stored skip set whose lookup returns an
address, the filter returns that address when it is private and the
configured proxy address when it is not. -/
theorem c3_private_passthrough (f : DnsPrivatePassthroughFilter)
    (host : List Nat) (r : IPv4)
    (hskip : host ∉ f.skip_passthrough_hosts)
    (hl : f.real_dns_lookup host = some r) :
    (is_private r = true → f.call host = some r) ∧
    (is_private r = false → f.call host = some f.web_proxy_ip) := by
  constructor <;> intro hp <;>
    simp [DnsPrivatePassthroughFilter.call, DnsPrivatePassthroughFilter.callT,
      hskip, hl, hp]

/-- C3 witness: an upstream result of 192.168.1.5 is returned as-is, while
8.8.8.8 yields the proxy address 4.4.4.4. -/
theorem c3_witness :
    DnsPrivatePassthroughFilter.call
      (DnsPrivatePassthroughFilter.init ⟨4, 4, 4, 4⟩
        (fun _ => some ⟨192, 168, 1, 5⟩) []) [120, 46] =
      some ⟨192, 168, 1, 5⟩ ∧
    DnsPrivatePassthroughFilter.call
      (DnsPrivatePassthroughFilter.init ⟨4, 4, 4, 4⟩
        (fun _ => some ⟨8, 8, 8, 8⟩) []) [120, 46] =
      some ⟨4, 4, 4, 4⟩ :=
  ⟨(c3_private_passthrough _ [120, 46] ⟨192, 168, 1, 5⟩ (by decide) rfl).1
      (by decide),
   (c3_private_passthrough _ [120, 46] ⟨8, 8, 8, 8⟩ (by decide) rfl).2
      (by decide)⟩

/-- C7: for a host in the stored skip set, the filter returns the configured
proxy address and invokes the upstream resolver zero times. -/
theorem c7_skip_no_lookup (f : DnsPrivatePassthroughFilter) (host : List Nat)
    (hskip : host ∈ f.skip_passthrough_hosts) :
    f.callT host = (some f.web_proxy_ip, 0) := by
  simp [DnsPrivatePassthroughFilter.callT, hskip]

/-- C7 witness: with skip host www, the query www. is answered with the
proxy address without any lookup. -/
theorem c7_witness :
    (DnsPrivatePassthroughFilter.init ⟨4, 4, 4, 4⟩
      (fun _ => some ⟨10, 0, 0, 1⟩) [[119, 119, 119]]).callT
        [119, 119, 119, 46] = (some ⟨4, 4, 4, 4⟩, 0) :=
  c7_skip_no_lookup _ [119, 119, 119, 46] (by decide)

/-- C8: whenever the passthrough filter returns none for a decoded query,
the handler substitutes the server bind address as the answer address and
still reaches the response write (no error; the written payload is the
response encoded for the bind address). -/
theorem c8_none_substitutes_bind (data : List Nat)
    (f : List Nat → Option IPv4) (addr : IPv4) (q : UdpDnsHandler.Query)
    (hdec : UdpDnsHandler.decode data = Except.ok q)
    (hnone : f q.domain = none) :
    UdpDnsHandler.handle data f addr =
      Except.ok (UdpDnsHandler.get_dns_response q addr) := by
  simp [UdpDnsHandler.handle, hdec, hnone]

/-- C8 witness: a filter that always fails still yields a written response
carrying the bind address 10.1.2.3. -/
theorem c8_witness :
    UdpDnsHandler.handle testPacket (fun _ => none) ⟨10, 1, 2, 3⟩ =
      Except.ok (UdpDnsHandler.get_dns_response testQuery ⟨10, 1, 2, 3⟩) :=
  c8_none_substitutes_bind testPacket (fun _ => none) ⟨10, 1, 2, 3⟩ testQuery
    rfl rfl

/-- C4 counterexample: the 3-byte packet 00 00 40 is shorter than the
12-byte header, yet its operation code is 8, so handling does not fail: the
handler runs to completion and passes the empty payload to the write. -/
theorem c4_counterexample :
    UdpDnsHandler.handle [0, 0, 0x40] (fun _ => none) ⟨127, 0, 0, 1⟩ =
      Except.ok [] := rfl

/-- C4 amended: a packet shorter than 12 bytes makes handling fail with an
index error (the malformed-packet failure, before any write) exactly when
the packet is shorter than 3 bytes or its operation code is 0; a packet of
length 3 to 11 with a nonzero operation code is instead handled without
failure and the empty payload is written. -/
theorem c4_amended (data : List Nat) (f : List Nat → Option IPv4)
    (addr : IPv4) (hshort : data.length < 12) :
    (data.length < 3 ∨ (data.getD 2 0 >>> 3) &&& 15 = 0 →
      UdpDnsHandler.handle data f addr =
        Except.error UdpDnsHandler.HandleErr.indexError) ∧
    (3 ≤ data.length → (data.getD 2 0 >>> 3) &&& 15 ≠ 0 →
      UdpDnsHandler.handle data f addr = Except.ok []) := by
  rcases data with _ | ⟨b0, data⟩
  · refine ⟨fun _ => ?_, fun h3 _ => by simp at h3⟩
    simp [UdpDnsHandler.handle, UdpDnsHandler.decode, List.get?]
  rcases data with _ | ⟨b1, data⟩
  · refine ⟨fun _ => ?_, fun h3 _ => by simp at h3⟩
    simp [UdpDnsHandler.handle, UdpDnsHandler.decode, List.get?]
  rcases data with _ | ⟨b2, rest⟩
  · refine ⟨fun _ => ?_, fun h3 _ => by simp at h3⟩
    simp [UdpDnsHandler.handle, UdpDnsHandler.decode, List.get?]
  have hdrop : (b0 :: b1 :: b2 :: rest).drop 12 = [] := by
    apply List.drop_eq_nil_of_le
    simp only [List.length_cons]
    simp only [List.length_cons] at hshort
    omega
  constructor
  · intro hcase
    have hop0 : (b2 >>> 3) &&& 15 = 0 := by
      rcases hcase with h3 | hop
      · simp only [List.length_cons] at h3
        omega
      · simpa [List.getD] using hop
    simp [UdpDnsHandler.handle, UdpDnsHandler.decode, List.get?, hop0, hdrop,
      UdpDnsHandler._domain, UdpDnsHandler.domainGo]
  · intro h3 hop
    have hop2 : ¬((b2 >>> 3) &&& 15 = 0) := by simpa [List.getD] using hop
    simp [UdpDnsHandler.handle, UdpDnsHandler.decode, List.get?, hop2,
      UdpDnsHandler.get_dns_response]

/-- C4 amended witness: the empty packet errors; the 3-byte packet with a
zero opcode errors as well. -/
theorem c4_amended_witness :
    UdpDnsHandler.handle [0, 0, 0] (fun _ => none) ⟨127, 0, 0, 1⟩ =
      Except.error UdpDnsHandler.HandleErr.indexError :=
  (c4_amended [0, 0, 0] (fun _ => none) ⟨127, 0, 0, 1⟩ (by decide)).1
    (Or.inr (by decide))

/-- C5 counterexample: after the no-answer marker has been written for the
hostname a., a later lookup whose upstream query succeeds overwrites the
stored marker with the resolved address — the stored value changes. -/
theorem c5_counterexample :
    dictGetEntry (dictSet [] [97, 46] none) [97, 46] = some none ∧
    dictGetEntry
      (RealDnsLookup.call (dictSet [] [97, 46] none)
        (QueryOutcome.answers [⟨192, 168, 1, 5⟩]) [97, 46]).2 [97, 46] =
      some (some ⟨192, 168, 1, 5⟩) := by decide

/-- C5 amended: once a resolved address (a truthy value) has been written
for a hostname, no subsequent lookup — for that hostname or any other —
changes its stored value; only the falsy no-answer marker fails the cache
hit test and can be overwritten by a later successful resolution. -/
theorem c5_amended (c : Cache) (h h' : List Nat) (v : IPv4)
    (u : QueryOutcome)
    (hstored : dictGetEntry c h = some (some v)) :
    dictGetEntry (RealDnsLookup.call c u h').2 h = some (some v) := by
  by_cases hh : (dictGet c h').isSome
  · simp [RealDnsLookup.call, hh, hstored]
  · have hne : h' ≠ h := by
      intro he
      subst he
      rw [dictGet, hstored] at hh
      simp at hh
    cases u with
    | answers l =>
      cases l with
      | nil =>
        simp [RealDnsLookup.call, hh, dictGetEntry_dictSet, hne, hstored]
      | cons a t =>
        simp [RealDnsLookup.call, hh, dictGetEntry_dictSet, hne, hstored]
    | noAnswer => simp [RealDnsLookup.call, hh, hstored]
    | nxdomain => simp [RealDnsLookup.call, hh, hstored]
    | timeout => simp [RealDnsLookup.call, hh, hstored]

/-- C5 amended witness: a stored address for a. survives a later lookup of
the same hostname. -/
theorem c5_amended_witness :
    dictGetEntry
      (RealDnsLookup.call [([97, 46], some ⟨10, 0, 0, 1⟩)]
        QueryOutcome.timeout [97, 46]).2 [97, 46] =
      some (some ⟨10, 0, 0, 1⟩) :=
  c5_amended [([97, 46], some ⟨10, 0, 0, 1⟩)] [97, 46] [97, 46] ⟨10, 0, 0, 1⟩
    QueryOutcome.timeout (by decide)

/-- C6 counterexample: a timed-out lookup of a. on an empty cache returns
none, but the resulting cache still has no entry for a. — no no-answer
marker was stored. -/
theorem c6_counterexample :
    (RealDnsLookup.call [] QueryOutcome.timeout [97, 46]).1 = none ∧
    dictGetEntry (RealDnsLookup.call [] QueryOutcome.timeout [97, 46]).2
      [97, 46] = none := by decide

/-- C6 amended: on a cache miss, each of the three upstream failures —
no-answer, non-existent domain, timeout — makes lookup return none with the
cache left unchanged (nothing is stored); the no-answer marker is stored
only when the upstream query returns normally with an empty answer list. -/
theorem c6_amended (c : Cache) (h : List Nat)
    (hmiss : dictGet c h = none) :
    (∀ u, (u = QueryOutcome.noAnswer ∨ u = QueryOutcome.nxdomain ∨
        u = QueryOutcome.timeout) →
      RealDnsLookup.call c u h = (none, c)) ∧
    RealDnsLookup.call c (QueryOutcome.answers []) h =
      (none, dictSet c h none) := by
  constructor
  · rintro u (rfl | rfl | rfl) <;> simp [RealDnsLookup.call, hmiss]
  · simp [RealDnsLookup.call, hmiss]

/-- C6 amended witness: on the empty cache, a no-answer failure for b.
returns none and leaves the cache empty, while an empty answer list stores
the marker. -/
theorem c6_amended_witness :
    RealDnsLookup.call [] QueryOutcome.noAnswer [98, 46] = (none, []) ∧
    RealDnsLookup.call [] (QueryOutcome.answers []) [98, 46] =
      (none, dictSet [] [98, 46] none) :=
  ⟨(c6_amended [] [98, 46] (by decide)).1 QueryOutcome.noAnswer (Or.inl rfl),
   (c6_amended [] [98, 46] (by decide)).2⟩

/-- C9 counterexample: with the host a. (which already ends in a dot)
configured in the skip list, the query whose question name is the single
label "a." (wire bytes 02 61 2e 00) decodes to the domain a.. — which is in
the stored skip set, so the skip branch is taken: a trailing-dot host CAN
match a query. -/
theorem c9_counterexample :
    UdpDnsHandler._domain [2, 97, 46, 0] = some [97, 46, 46] ∧
    [97, 46, 46] ∈ (DnsPrivatePassthroughFilter.init ⟨1, 2, 3, 4⟩
      (fun _ => none) [[97, 46]]).skip_passthrough_hosts ∧
    (DnsPrivatePassthroughFilter.init ⟨1, 2, 3, 4⟩ (fun _ => none)
      [[97, 46]]).callT [97, 46, 46] = (some ⟨1, 2, 3, 4⟩, 0) := by
  refine ⟨by decide, by decide, rfl⟩

/-- C9 amended: the constructor stores every configured skip host with a
dot appended, so a queried domain is in the stored skip set exactly when it
equals some configured host plus a dot; a host configured already in
trailing-dot form can only be matched by a query one of whose labels itself
contains the dot byte — it never matches a query whose labels are free of
the dot byte. -/
theorem c9_amended :
    (∀ (wp : IPv4) (lk : List Nat → Option IPv4)
        (hosts : List (List Nat)) (d : List Nat),
      d ∈ (DnsPrivatePassthroughFilter.init wp lk
          hosts).skip_passthrough_hosts ↔
        ∃ h ∈ hosts, d = h ++ [46]) ∧
    (∀ (labels : List (List Nat)) (rest h : List Nat),
      (∀ l ∈ labels, l ≠ [] ∧ 46 ∉ l) →
      h.getLast? = some 46 →
      UdpDnsHandler._domain (encodeLabels labels ++ 0 :: rest) ≠
        some (h ++ [46])) := by
  constructor
  · intro wp lk hosts d
    simp only [DnsPrivatePassthroughFilter.init, List.mem_map]
    constructor
    · rintro ⟨x, hx, he⟩
      exact ⟨x, hx, he.symm⟩
    · rintro ⟨x, hx, he⟩
      exact ⟨x, hx, he.symm⟩
  · intro labels rest h hl hlast heq
    rw [_domain_encode rest (fun l hm => (hl l hm).1)] at heq
    have hj : joinDomain labels = h ++ [46] := by
      injection heq
    have hlabne : labels ≠ [] := by
      intro hc
      subst hc
      rw [joinDomain_nil] at hj
      simpa using congrArg List.length hj
    obtain ⟨hg1, hg2⟩ := joinDomain_getLast hlabne hl
    rw [hj, List.dropLast_concat] at hg2
    exact hg2 hlast

/-- C9 amended witness: b. is stored for the configured host b, and the
domain decoded from the single dot-free label b never equals the trailing
dot host b. plus a dot. -/
theorem c9_amended_witness :
    ([98, 46] ∈ (DnsPrivatePassthroughFilter.init ⟨1, 2, 3, 4⟩
        (fun _ => none) [[98]]).skip_passthrough_hosts ↔
      ∃ h ∈ [[98]], [98, 46] = h ++ [46]) ∧
    UdpDnsHandler._domain (encodeLabels [[98]] ++ 0 :: []) ≠
      some ([98, 46] ++ [46]) :=
  ⟨c9_amended.1 ⟨1, 2, 3, 4⟩ (fun _ => none) [[98]] [98, 46],
   c9_amended.2 [[98]] [] [98, 46] (by decide) (by decide)⟩

/-- C2 witness: the packet for www.test.com with transaction id 0x1234
decodes to the trailing-dot domain www.test.com. -/
theorem c2_witness :
    ∃ q, UdpDnsHandler.decode testPacket = Except.ok q ∧
      q.domain = joinDomain [[119, 119, 119], [116, 101, 115, 116],
        [99, 111, 109]] :=
  c2_decode_domain testPacket
    [[119, 119, 119], [116, 101, 115, 116], [99, 111, 109]] [0, 1, 0, 1]
    (by decide) (by decide) (by decide) (by decide)

/-- C1 witness: the response for the www.test.com packet with answer
address 10.0.0.1, checked against the full layout. -/
theorem c1_witness :
    ∃ resp,
      UdpDnsHandler.handle testPacket (fun _ => some ⟨10, 0, 0, 1⟩)
        ⟨127, 0, 0, 1⟩ = Except.ok resp ∧
      resp = testPacket.take 2 ++ [0x81, 0x80] ++
        ((testPacket.drop 4).take 2 ++ (testPacket.drop 4).take 2) ++
        [0, 0, 0, 0] ++ testPacket.drop 12 ++
        [0xc0, 0x0c] ++ [0x00, 0x01] ++ [0x00, 0x01] ++
        [0x00, 0x00, 0x00, 0x3c] ++ [0x00, 0x04] ++
        inet_aton ⟨10, 0, 0, 1⟩ ∧
      resp.take 2 = testPacket.take 2 ∧
      resp.drop (resp.length - 4) = inet_aton ⟨10, 0, 0, 1⟩ :=
  c1_response_layout testPacket
    [[119, 119, 119], [116, 101, 115, 116], [99, 111, 109]] [0, 1, 0, 1]
    ⟨10, 0, 0, 1⟩ ⟨127, 0, 0, 1⟩
    (by decide) (by decide) (by decide) (by decide) (by decide)
